import Mathlib

/-!
Verification of the SSMS point-to-point encrypted messaging protocol
(`protocol.py`, `networking.py`, `crypto.py`) against its specification.

The wire protocol is shallowly embedded: bytes are `Nat` values below 256,
byte strings are `List Nat`, Python exceptions are the error component of
`Except`, the incoming TCP stream is an explicit `List Nat` that receive
operations consume from the front, and the sequence of frames written to the
socket is returned as a `List (List Nat)` trace (one list entry per
`Connection.send` call).  The external cipher library (`cryptography`) is
modelled by an oracle argument giving the outcome of `crypto.encrypt` /
`crypto.decrypt` for the one call a session performs.
-/

namespace SSMS

/-- Python exception kinds that can escape the protocol code.
`errorCodes c` models a raised `ErrorCodes(c)` instance, `keyError` a
`KeyError` from a failed dict lookup or from `ErrorCodes.__init__`,
`runtimeError` a `RuntimeError`, `connectionBroken` the
`RuntimeError('socket connection broken')` from `networking.Connection`,
`cryptoError` a non-`ErrorCodes` exception escaping the cipher library, and
`blocked` marks a run of the chunk-level receive model whose oracle has no
further chunks (a real socket would block forever; no Python exception). -/
inductive PyErr where
  | errorCodes (c : Nat)
  | keyError
  | runtimeError
  | connectionBroken
  | cryptoError
  | blocked
deriving DecidableEq, Repr

namespace ErrorCodes

/-- `ErrorCodes.OK` -/
def OK : Nat := 0

/-- `ErrorCodes.NotSupportedParams` -/
def NotSupportedParams : Nat := 1

/-- `ErrorCodes.Internal` -/
def Internal : Nat := 2

/-- `ErrorCodes.KeyNotShared` -/
def KeyNotShared : Nat := 3

/-- `ErrorCodes.UnexpectedType` -/
def UnexpectedType : Nat := 4

/-- `ErrorCodes.NullIV` -/
def NullIV : Nat := 5

/-- `ErrorCodes.DataError` -/
def DataError : Nat := 6

end ErrorCodes

/-- The `ErrorCodes.error_types` dict mapping each error id back to its
string. -/
def error_types : Nat → Option String
  | 0 => some ("OK")
  | 1 => some ("NotSupportedParams")
  | 2 => some ("Internal")
  | 3 => some ("KeyNotShared")
  | 4 => some ("UnexpectedType")
  | 5 => some ("NullIV")
  | 6 => some ("DataError")
  | _ => none

/-- `ErrorCodes.__init__`: constructing an `ErrorCodes` raises `KeyError` when
the code is not a key of `error_types`, and otherwise stores the code. -/
def ErrorCodes_mk (code : Nat) : Except PyErr Nat :=
  match error_types code with
  | none => .error .keyError
  | some _ => .ok code

namespace Protocol

/-- `Protocol.ParReq` -/
def ParReq : Nat := 0

/-- `Protocol.ParConf` -/
def ParConf : Nat := 1

/-- `Protocol.Dados` -/
def Dados : Nat := 2

/-- `Protocol.Lista` -/
def Lista : Nat := 3

/-- `Protocol.Conf` -/
def Conf : Nat := 4

/-- The `Protocol.alg_to_code` dict. -/
def alg_to_code : String → Option Nat
  | "AES128" => some 0
  | "AES192" => some 1
  | "AES256" => some 2
  | "DES" => some 3
  | "3DES-EDE2" => some 4
  | "3DES-EDE3" => some 5
  | _ => none

/-- The `Protocol.code_to_alg` dict. -/
def code_to_alg : Nat → Option String
  | 0 => some ("AES128")
  | 1 => some ("AES192")
  | 2 => some ("AES256")
  | 3 => some ("DES")
  | 4 => some ("3DES-EDE2")
  | 5 => some ("3DES-EDE3")
  | _ => none

/-- The `Protocol.mode_to_code` dict (codes 2, 4, 5 are commented out in the
source). -/
def mode_to_code : String → Option Nat
  | "ECB" => some 0
  | "CBC" => some 1
  | "CFB8" => some 3
  | "CTR" => some 6
  | _ => none

/-- The `Protocol.code_to_mode` dict (codes 2, 4, 5 are commented out in the
source). -/
def code_to_mode : Nat → Option String
  | 0 => some ("ECB")
  | 1 => some ("CBC")
  | 3 => some ("CFB8")
  | 6 => some ("CTR")
  | _ => none

end Protocol

/-- The mutable fields of a `Protocol` instance (the session state).  The
connection handle and the shared key are omitted: the connection is modelled
by the explicit input stream and output trace, and the key only feeds the
external cipher library, which is modelled by an oracle.  Fields that are
`None` in Python before being assigned are given neutral defaults (`0`, `""`,
`[]`). -/
structure Session where
  source_id : Nat
  dest_id : Nat
  algorithm : String
  algorithm_mode : String
  algorithm_code : Nat
  algorithm_mode_code : Nat
  /-- `self.pkcs5` as it is packed on the wire: `True = 1`, `False = 0`
  (on the receive side the source stores the decoded nibble itself). -/
  pkcs5 : Nat
  iv : List Nat
  message : List Nat
deriving DecidableEq, Repr

/-- One decoded entry of a `Lista` payload (the dict built by
`Protocol.lista_recv` with keys `algorithm`, `padding`, `algorithm_mode`). -/
structure Opt where
  algorithm : String
  padding : Bool
  algorithm_mode : String
deriving DecidableEq, Repr

/-- `networking.Connection.receive(conn, 1)`: take one byte off the stream,
or raise the connection-broken `RuntimeError` when the stream is exhausted.
(The exact-read behaviour is proved from the chunk-level model below.) -/
def recv1 (input : List Nat) : Except PyErr (Nat × List Nat) :=
  match input with
  | [] => .error .connectionBroken
  | b :: rest => .ok (b, rest)

/-- `networking.Connection.receive(conn, n)`: take exactly `n` bytes off the
stream, or raise the connection-broken `RuntimeError` when fewer remain.
(The exact-read behaviour is proved from the chunk-level model below.) -/
def recvN (input : List Nat) (n : Nat) : Except PyErr (List Nat × List Nat) :=
  if n ≤ input.length then .ok (input.take n, input.drop n)
  else .error .connectionBroken

/-- `Protocol.first_byte_check`: read one byte; the high nibble must equal the
expected message type (else raise `ErrorCodes(UnexpectedType)`); the low
nibble is passed to the `ErrorCodes` constructor (which raises `KeyError` on
codes outside `error_types`) and returned. -/
def first_byte_check (expected_type : Nat) (input : List Nat) :
    Except PyErr (Nat × List Nat) :=
  match recv1 input with
  | .error e => .error e
  | .ok (b, rest) =>
    if b / 16 ≠ expected_type then .error (.errorCodes ErrorCodes.UnexpectedType)
    else
      match ErrorCodes_mk (b % 16) with
      | .error e => .error e
      | .ok code => .ok (code, rest)

/-- `Protocol.par_req_send`: the 7-byte `ParReq` frame
`pack('>BHHBB', ParReq<<4|OK, source_id, dest_id, alg_code<<4|pkcs5,
mode_code)`. -/
def par_req_send (st : Session) : List Nat :=
  [Protocol.ParReq * 16 + ErrorCodes.OK,
   st.source_id / 256, st.source_id % 256,
   st.dest_id / 256, st.dest_id % 256,
   st.algorithm_code * 16 + st.pkcs5,
   st.algorithm_mode_code]

/-- `Protocol.par_req_recv`: check the header byte, read 6 body bytes, decode
source id, dest id, algorithm nibble (must be a `code_to_alg` key), padding
nibble (must be 0 or 1) and mode byte (must be a `code_to_mode` key), raising
`ErrorCodes(NotSupportedParams)` otherwise. -/
def par_req_recv (st : Session) (input : List Nat) :
    Except PyErr (Session × List Nat) :=
  match first_byte_check Protocol.ParReq input with
  | .error e => .error e
  | .ok (error, rest) =>
    if error ≠ ErrorCodes.OK then .error (.errorCodes ErrorCodes.Internal)
    else
      match recvN rest 6 with
      | .error e => .error e
      | .ok (data, rest) =>
        let source_id := data.getD 0 0 * 256 + data.getD 1 0
        let dest_id := data.getD 2 0 * 256 + data.getD 3 0
        let alg := data.getD 4 0 / 16
        match Protocol.code_to_alg alg with
        | none => .error (.errorCodes ErrorCodes.NotSupportedParams)
        | some algName =>
          let padding := data.getD 4 0 % 16
          if padding = 0 ∨ padding = 1 then
            let mode := data.getD 5 0
            match Protocol.code_to_mode mode with
            | none => .error (.errorCodes ErrorCodes.NotSupportedParams)
            | some modeName =>
              .ok ({ st with
                      source_id := source_id, dest_id := dest_id,
                      algorithm := algName, algorithm_code := alg,
                      pkcs5 := padding,
                      algorithm_mode := modeName, algorithm_mode_code := mode },
                   rest)
          else .error (.errorCodes ErrorCodes.NotSupportedParams)

/-- `Protocol.par_conf_send`: store a fresh IV (here supplied by the caller,
standing for `os.urandom(16)`) and send the frame
`pack('>B', ParConf<<4|OK) + iv`.  Returns the updated session and the sent
frame. -/
def par_conf_send (st : Session) (iv : List Nat) : Session × List Nat :=
  ({ st with iv := iv }, (Protocol.ParConf * 16 + ErrorCodes.OK) :: iv)

/-- `Protocol.par_conf_recv`: read the 16 IV bytes; if the header's code
nibble was not `OK` raise `ErrorCodes(Internal)`; store the IV; then the
source compares the IV against `b'0' * 16` — sixteen ASCII `'0'` bytes, i.e.
`0x30 = 48` each — and raises `ErrorCodes(NullIV)` on equality. -/
def par_conf_recv (st : Session) (error : Nat) (input : List Nat) :
    Except PyErr (Session × List Nat) :=
  match recvN input 16 with
  | .error e => .error e
  | .ok (data, rest) =>
    if error ≠ ErrorCodes.OK then .error (.errorCodes ErrorCodes.Internal)
    else
      if data = List.replicate 16 48 then .error (.errorCodes ErrorCodes.NullIV)
      else .ok ({ st with iv := data }, rest)

/-- `Protocol.dados_send`: `crypto.encrypt(self._message, key, iv, alg, mode,
pkcs5)` is modelled by the oracle `enc` giving that call's outcome.  On
success the frame `pack('>BH', Dados<<4|OK, len(payload)) + payload` is sent
and the method returns; on any exception the payload is empty, the frame
`pack('>BH', Dados<<4|Internal, 0)` is still sent, and the caught exception
is re-raised afterwards.  Returns the outcome and the frames sent. -/
def dados_send (enc : Except PyErr (List Nat)) :
    Except PyErr Unit × List (List Nat) :=
  match enc with
  | .ok payload =>
    (.ok (),
     [[Protocol.Dados * 16 + ErrorCodes.OK,
       payload.length / 256, payload.length % 256] ++ payload])
  | .error e =>
    (.error e,
     [[Protocol.Dados * 16 + ErrorCodes.Internal, 0, 0]])

/-- `Protocol.dados_recv`: check the header byte (returning early with the
carried code when it is not `OK`), read the 2-byte payload size and then the
payload, and decrypt it; `crypto.decrypt` is modelled by the oracle `dec`; any
exception from it is turned into `ErrorCodes(DataError)`.  Returns the header
code, the session with the decrypted message stored, and the rest of the
stream. -/
def dados_recv (st : Session) (input : List Nat)
    (dec : Except PyErr (List Nat)) :
    Except PyErr (Nat × Session × List Nat) :=
  match first_byte_check Protocol.Dados input with
  | .error e => .error e
  | .ok (error, rest) =>
    if error ≠ ErrorCodes.OK then .ok (error, st, rest)
    else
      match recvN rest 2 with
      | .error e => .error e
      | .ok (szb, rest2) =>
        let payload_size := szb.getD 0 0 * 256 + szb.getD 1 0
        match recvN rest2 payload_size with
        | .error e => .error e
        | .ok (_payload, rest3) =>
          match dec with
          | .error _ => .error (.errorCodes ErrorCodes.DataError)
          | .ok m => .ok (error, { st with message := m }, rest3)

/-- One iteration of the `Protocol.lista_recv` loop body: the entry's first
byte yields the algorithm nibble (looked up in `code_to_alg`; `KeyError` when
absent) and the padding nibble (`padding == 1`); its second byte is the mode
code, which the source also looks up in `code_to_alg` (line
`opt['algorithm_mode'] = self.code_to_alg[mode]`), not in `code_to_mode`. -/
def lista_entry (b0 b1 : Nat) : Except PyErr Opt :=
  match Protocol.code_to_alg (b0 / 16) with
  | none => .error .keyError
  | some a =>
    match Protocol.code_to_alg b1 with
    | none => .error .keyError
    | some m => .ok ⟨a, b0 % 16 == 1, m⟩

/-- The `Protocol.lista_recv` loop over `range(len(payload) // 2)`: one
`lista_entry` per 2-byte slice, a trailing odd byte being ignored. -/
def lista_entries (payload : List Nat) : Except PyErr (List Opt) :=
  match payload with
  | b0 :: b1 :: rest =>
    match lista_entry b0 b1 with
    | .error e => .error e
    | .ok o =>
      match lista_entries rest with
      | .error e => .error e
      | .ok os => .ok (o :: os)
  | _ => .ok []

/-- `Protocol.lista_recv`: read the 1-byte payload size, then the payload,
decode its entries, and return the pair of the header's error code and the
decoded list. -/
def lista_recv (error : Nat) (input : List Nat) :
    Except PyErr ((Nat × List Opt) × List Nat) :=
  match recv1 input with
  | .error e => .error e
  | .ok (payload_size, rest) =>
    match recvN rest payload_size with
    | .error e => .error e
    | .ok (payload, rest2) =>
      match lista_entries payload with
      | .error e => .error e
      | .ok l => .ok ((error, l), rest2)

/-- `Protocol.conf_send`: the 1-byte frame `pack('>B', Conf<<4|code)`. -/
def conf_send (code : Nat) : List Nat :=
  [Protocol.Conf * 16 + code]

/-- `Protocol.conf_recv` is `first_byte_check(Conf)`. -/
def conf_recv (input : List Nat) : Except PyErr (Nat × List Nat) :=
  first_byte_check Protocol.Conf input

/-- `Protocol.par_conf_OR_lista_recv`: read one byte, split it into type and
code nibbles, construct an `ErrorCodes` from the code nibble (`KeyError` on
7–15), then dispatch: `ParConf` runs `par_conf_recv` and yields `none`
(Python `None`), `Lista` runs `lista_recv` and yields its pair, anything else
raises `ErrorCodes(UnexpectedType)`. -/
def par_conf_OR_lista_recv (st : Session) (input : List Nat) :
    Except PyErr (Option (Nat × List Opt) × Session × List Nat) :=
  match recv1 input with
  | .error e => .error e
  | .ok (b, rest) =>
    match ErrorCodes_mk (b % 16) with
    | .error e => .error e
    | .ok error =>
      if b / 16 = Protocol.ParConf then
        match par_conf_recv st error rest with
        | .error e => .error e
        | .ok (st2, rest2) => .ok (none, st2, rest2)
      else if b / 16 = Protocol.Lista then
        match lista_recv error rest with
        | .error e => .error e
        | .ok (ret, rest2) => .ok (some ret, st, rest2)
      else .error (.errorCodes ErrorCodes.UnexpectedType)

/-- `Send.process`: send `ParReq`; run `par_conf_OR_lista_recv` inside a
`try` whose body re-raises `ret[0]` when a `Lista` tuple came back, with
`except ErrorCodes` sending `Conf(Internal)` and re-raising; then
`dados_send` under the same kind of `try`; finally `conf_recv`, re-raising a
non-`OK` confirmation code.  A raised exception is the `.error` outcome
(terminal state `Failed`); `.ok ()` is terminal `Done`.  The second component
is the trace of frames sent, in order. -/
def Send_process (st : Session) (input : List Nat)
    (enc : Except PyErr (List Nat)) :
    Except PyErr Unit × List (List Nat) :=
  let trace0 := [par_req_send st]
  match par_conf_OR_lista_recv st input with
  | .error (.errorCodes c) =>
    (.error (.errorCodes c), trace0 ++ [conf_send ErrorCodes.Internal])
  | .error e => (.error e, trace0)
  | .ok (some ret, _st2, _rest) =>
    (.error (.errorCodes ret.fst), trace0 ++ [conf_send ErrorCodes.Internal])
  | .ok (none, _st2, rest) =>
    match dados_send enc with
    | (.error (.errorCodes c), frames) =>
      (.error (.errorCodes c), trace0 ++ frames ++ [conf_send ErrorCodes.Internal])
    | (.error e, frames) => (.error e, trace0 ++ frames)
    | (.ok _, frames) =>
      match conf_recv rest with
      | .error e => (.error e, trace0 ++ frames)
      | .ok (err, _rest2) =>
        if err ≠ ErrorCodes.OK then (.error (.errorCodes err), trace0 ++ frames)
        else (.ok (), trace0 ++ frames)

/-- The blank session built by `Receive.__init__` (every negotiable field is
`None` in Python; neutral defaults here). -/
def blank_session : Session :=
  ⟨0, 0, "", "", 0, 0, 0, [], []⟩

/-- `Receive.process`: run `par_req_recv` under a `try` whose
`except ErrorCodes` sends `Conf(Internal)` and re-raises; send `ParConf`
(with the IV, standing for `os.urandom(16)`, supplied by the `iv` argument);
run `dados_recv` under a `try` whose `except ErrorCodes` sends `Conf` with
the caught code and re-raises; re-raise a non-`OK` returned code; otherwise
send `Conf(OK)`.  Outcome and sent-frame trace as in `Send_process`. -/
def Receive_process (input : List Nat) (iv : List Nat)
    (dec : Except PyErr (List Nat)) :
    Except PyErr Unit × List (List Nat) :=
  match par_req_recv blank_session input with
  | .error (.errorCodes c) =>
    (.error (.errorCodes c), [conf_send ErrorCodes.Internal])
  | .error e => (.error e, [])
  | .ok (st1, rest) =>
    let pc := par_conf_send st1 iv
    match dados_recv pc.fst rest dec with
    | .error (.errorCodes c) =>
      (.error (.errorCodes c), [pc.snd, conf_send c])
    | .error e => (.error e, [pc.snd])
    | .ok (err, _st3, _rest2) =>
      if err ≠ ErrorCodes.OK then (.error (.errorCodes err), [pc.snd])
      else (.ok (), [pc.snd, conf_send ErrorCodes.OK])

/-- Python's `str.split(',')` (as used by `Protocol.__init__` on the
`algorithm` argument), over the string's character list. -/
def split_on_comma_aux (cs : List Char) (cur : List Char) : List (List Char) :=
  match cs with
  | [] => [cur.reverse]
  | c :: rest =>
    if c = ',' then cur.reverse :: split_on_comma_aux rest []
    else split_on_comma_aux rest (c :: cur)

/-- Python's `algorithm.split(',')`. -/
def split_on_comma (s : String) : List String :=
  (split_on_comma_aux s.toList []).map String.mk

/-- `Protocol.__init__` as invoked by `Send.__init__` (all optional arguments
supplied): split the algorithm string on `','` (a `RuntimeError` unless it
yields exactly two parts), look both parts up in `alg_to_code` /
`mode_to_code` (`RuntimeError` when either is absent), then reject a message
longer than 1440 bytes with `ErrorCodes(Internal)`.  No frame is sent: the
constructor performs no network I/O. -/
def Send_init (source_id dest_id : Nat) (algorithm : String) (pkcs5 : Bool)
    (msg : List Nat) : Except PyErr Session :=
  match split_on_comma algorithm with
  | [alg, mode] =>
    match Protocol.alg_to_code alg, Protocol.mode_to_code mode with
    | some ac, some mc =>
      if 1440 < msg.length then .error (.errorCodes ErrorCodes.Internal)
      else .ok ⟨source_id, dest_id, alg, mode, ac, mc,
                if pkcs5 then 1 else 0, [], msg⟩
    | _, _ => .error .runtimeError
  | _ => .error .runtimeError

/-- `networking.Client.send`: construct a `Send` session (whose constructor
can raise before any network I/O, in which case the trace is empty) and run
`Send.process`. -/
def Client_send (source_id dest_id : Nat) (algorithm : String) (pkcs5 : Bool)
    (msg : List Nat) (input : List Nat) (enc : Except PyErr (List Nat)) :
    Except PyErr Unit × List (List Nat) :=
  match Send_init source_id dest_id algorithm pkcs5 msg with
  | .error e => (.error e, [])
  | .ok st => Send_process st input enc

namespace Networking

/-- The loop of `networking.Connection.receive`: `chunks` is the oracle of
successive `conn.recv` results; a call `conn.recv(k)` yields the next oracle
chunk truncated to `k` bytes (a socket never returns more than requested),
`msg` is the accumulator, `n` the requested size.  An empty chunk raises the
connection-broken `RuntimeError`; an exhausted oracle stands for a socket
that blocks forever (`.blocked`, not a Python exception). -/
def receiveAux (chunks : List (List Nat)) (msg : List Nat) (n : Nat) :
    Except PyErr (List Nat) :=
  match chunks with
  | [] => if msg.length < n then .error .blocked else .ok msg
  | c :: rest =>
    if msg.length < n then
      if c.take (min (n - msg.length) 2048) = [] then .error .connectionBroken
      else receiveAux rest (msg ++ c.take (min (n - msg.length) 2048)) n
    else .ok msg

/-- `networking.Connection.receive(conn, n)` at chunk level, starting from an
empty accumulator. -/
def receive (chunks : List (List Nat)) (n : Nat) : Except PyErr (List Nat) :=
  receiveAux chunks [] n

/-- The accumulated byte count after the receive loop has consumed the given
chunks, starting from `len` bytes already accumulated (a measuring device for
stating when fewer than `n` bytes have arrived). -/
def accLen (pre : List (List Nat)) (len n : Nat) : Nat :=
  match pre with
  | [] => len
  | c :: rest => accLen rest (len + (c.take (min (n - len) 2048)).length) n

end Networking

/-- A concrete initiator session used by the executable counterexamples:
source id 1, dest id 2, `AES128`/`ECB` (codes 0/0), no padding, plaintext
`b'hi'`. -/
def sample_session : Session :=
  ⟨1, 2, "AES128", "ECB", 0, 0, 0, [], [104, 105]⟩

/-! ## Helper lemmas -/

theorem recvN_exact (l r : List Nat) : recvN (l ++ r) l.length = .ok (l, r) := by
  simp [recvN, List.take_left, List.drop_left]

theorem recvN_all (l : List Nat) : recvN l l.length = .ok (l, []) := by
  simpa using recvN_exact l []

theorem error_types_ge7 (m : Nat) (h : 7 ≤ m) : error_types m = none := by
  obtain ⟨k, rfl⟩ : ∃ k, m = k + 7 := ⟨m - 7, by omega⟩
  rfl

theorem ErrorCodes_mk_ok (c : Nat) (h : c < 7) : ErrorCodes_mk c = .ok c := by
  interval_cases c <;> rfl

theorem alg_codes_lt (c : Nat) (n : String)
    (h : Protocol.code_to_alg c = some n) : c < 6 := by
  by_contra hc
  push_neg at hc
  obtain ⟨k, rfl⟩ : ∃ k, c = k + 6 := ⟨c - 6, by omega⟩
  rw [show Protocol.code_to_alg (k + 6) = none from rfl] at h
  exact Option.noConfusion h

theorem mode_codes_mem (c : Nat) (n : String)
    (h : Protocol.code_to_mode c = some n) : c = 0 ∨ c = 1 ∨ c = 3 ∨ c = 6 := by
  by_contra hc
  push_neg at hc
  obtain ⟨h0, h1, h3, h6⟩ := hc
  rcases Nat.lt_or_ge c 7 with h7 | h7
  · interval_cases c <;> simp_all [Protocol.code_to_mode]
  · obtain ⟨k, rfl⟩ : ∃ k, c = k + 7 := ⟨c - 7, by omega⟩
    rw [show Protocol.code_to_mode (k + 7) = none from rfl] at h
    exact Option.noConfusion h

theorem take_pos_ne_nil (c : List Nat) (k : Nat) (hc : c ≠ []) (hk : 0 < k) :
    c.take k ≠ [] := by
  cases c with
  | nil => exact absurd rfl hc
  | cons x xs => cases k with
    | zero => omega
    | succ k => simp

theorem receiveAux_ok_length (chunks : List (List Nat)) :
    ∀ (msg : List Nat) (n : Nat) (m : List Nat), msg.length ≤ n →
      Networking.receiveAux chunks msg n = .ok m → m.length = n := by
  induction chunks with
  | nil =>
    intro msg n m hle h
    simp only [Networking.receiveAux] at h
    split at h
    · exact absurd h (by simp)
    · injection h with h; subst h; omega
  | cons c rest ih =>
    intro msg n m hle h
    simp only [Networking.receiveAux] at h
    split at h
    · split at h
      · exact absurd h (by simp)
      · refine ih _ n m ?_ h
        have := List.length_take (min (n - msg.length) 2048) c
        simp only [List.length_append]
        omega
    · injection h with h; subst h; omega

theorem accLen_ge (pre : List (List Nat)) :
    ∀ (len n : Nat), len ≤ Networking.accLen pre len n := by
  induction pre with
  | nil => intro len n; simp [Networking.accLen]
  | cons c rest ih =>
    intro len n
    calc len ≤ len + (c.take (min (n - len) 2048)).length := by omega
      _ ≤ _ := ih _ n

theorem receiveAux_break (pre : List (List Nat)) :
    ∀ (rest : List (List Nat)) (msg : List Nat) (n : Nat),
      (∀ c ∈ pre, c ≠ []) → Networking.accLen pre msg.length n < n →
      Networking.receiveAux (pre ++ [] :: rest) msg n
        = .error .connectionBroken := by
  induction pre with
  | nil =>
    intro rest msg n _ hacc
    simp only [Networking.accLen] at hacc
    simp only [List.nil_append, Networking.receiveAux]
    rw [if_pos hacc, if_pos (by simp)]
  | cons c pre' ih =>
    intro rest msg n hne hacc
    simp only [Networking.accLen] at hacc
    have hge := accLen_ge pre' (msg.length + (c.take (min (n - msg.length) 2048)).length) n
    have hlt : msg.length < n := by omega
    simp only [List.cons_append, Networking.receiveAux]
    rw [if_pos hlt,
        if_neg (take_pos_ne_nil c _ (hne c (by simp)) (by omega))]
    have hlen : (msg ++ c.take (min (n - msg.length) 2048)).length
        = msg.length + (c.take (min (n - msg.length) 2048)).length := by
      simp [List.length_append]
    have h2 := ih rest (msg ++ c.take (min (n - msg.length) 2048)) n
      (fun d hd => hne d (by simp [hd]))
    rw [hlen] at h2
    exact h2 hacc

theorem receive_two_chunks (a b : List Nat) (n : Nat)
    (ha : a ≠ []) (hb : b ≠ []) (hn : n ≤ 2048)
    (hlt : a.length < n) (hsum : a.length + b.length = n) :
    Networking.receive [a, b] n = .ok (a ++ b) := by
  simp only [Networking.receive, Networking.receiveAux]
  rw [if_pos (by simp; omega)]
  have h1 : a.take (min (n - List.length ([] : List Nat)) 2048) = a := by
    simp only [List.length_nil, Nat.sub_zero]
    rw [Nat.min_eq_left hn]
    exact List.take_of_length_le (by omega)
  rw [h1, if_neg ha]
  simp only [List.nil_append]
  rw [if_pos hlt]
  have h2 : b.take (min (n - a.length) 2048) = b := by
    have hb' : n - a.length = b.length := by omega
    rw [hb', Nat.min_eq_left (by omega)]
    exact List.take_of_length_le (by omega)
  rw [h2, if_neg hb]
  rw [if_neg (by simp [List.length_append]; omega)]

theorem par_req_recv_bad (st : Session) (s1 s2 d1 d2 b4 b5 : Nat)
    (rest : List Nat)
    (h : Protocol.code_to_alg (b4 / 16) = none
       ∨ (b4 % 16 ≠ 0 ∧ b4 % 16 ≠ 1)
       ∨ Protocol.code_to_mode b5 = none) :
    par_req_recv st ([0, s1, s2, d1, d2, b4, b5] ++ rest)
      = .error (.errorCodes ErrorCodes.NotSupportedParams) := by
  have hfbc : ∀ l : List Nat,
      first_byte_check Protocol.ParReq (0 :: l) = .ok (ErrorCodes.OK, l) :=
    fun l => rfl
  simp only [List.cons_append, List.nil_append]
  simp only [par_req_recv, hfbc]
  rw [if_neg (by decide)]
  rw [show s1 :: s2 :: d1 :: d2 :: b4 :: b5 :: rest
        = [s1, s2, d1, d2, b4, b5] ++ rest from rfl]
  rw [show (6 : Nat) = [s1, s2, d1, d2, b4, b5].length from rfl, recvN_exact]
  simp only [List.getD_cons_zero, List.getD_cons_succ]
  rcases h with h | ⟨h0, h1⟩ | h
  · rw [h]
  · cases halg : Protocol.code_to_alg (b4 / 16)
    · rfl
    · simp only [halg]
      rw [if_neg (by simp [h0, h1])]
  · cases halg : Protocol.code_to_alg (b4 / 16)
    · rfl
    · simp only [halg]
      by_cases hpad : b4 % 16 = 0 ∨ b4 % 16 = 1
      · rw [if_pos hpad, h]
      · rw [if_neg hpad]

/-! ## Claim theorems -/

/-- C1.  The claim says an all-zero-byte IV in `ParConf` makes the initiator
abort with `NullIV`, send `Conf(Internal)` and never send `Dados`.  The code
instead compares the IV against `b'0' * 16` (sixteen ASCII `'0'` = `0x30`
bytes): on the failing input — a `ParConf` header `0x10` followed by sixteen
`0x00` bytes, with encryption succeeding and a final `Conf(OK)` — the
initiator accepts the IV, sends a `Dados` frame and completes in `Done`,
raising no `NullIV` and sending no `Conf(Internal)`; the `NullIV` path fires
only for the sixteen-ASCII-`'0'` IV. -/
theorem zero_iv_not_rejected :
    Send_process sample_session ((16 :: List.replicate 16 0) ++ [64]) (.ok [9])
      = (.ok (), [par_req_send sample_session, [32, 0, 1, 9]])
    ∧ Send_process sample_session (16 :: List.replicate 16 48) (.ok [9])
      = (.error (.errorCodes ErrorCodes.NullIV),
         [par_req_send sample_session, conf_send ErrorCodes.Internal]) :=
  ⟨rfl, rfl⟩

/-- C2.  Round-trip of the `ParReq` codec: for every well-formed field tuple
(source and destination id below 65536, registered algorithm code, padding
flag 0 or 1, registered mode code), `par_req_recv` applied to the 7-byte
frame produced by `par_req_send` recovers exactly the original source id,
destination id, algorithm code, padding flag and mode code. -/
theorem par_req_roundtrip (st : Session) (s d a p m : Nat) (an mn : String)
    (hs : s < 65536) (hd : d < 65536)
    (ha : Protocol.code_to_alg a = some an)
    (hp : p = 0 ∨ p = 1)
    (hm : Protocol.code_to_mode m = some mn) :
    par_req_recv st
      (par_req_send { st with source_id := s, dest_id := d, algorithm_code := a,
                              pkcs5 := p, algorithm_mode_code := m })
      = .ok ({ st with source_id := s, dest_id := d,
                       algorithm := an, algorithm_code := a, pkcs5 := p,
                       algorithm_mode := mn, algorithm_mode_code := m }, []) := by
  have hfbc : ∀ l : List Nat,
      first_byte_check Protocol.ParReq ((Protocol.ParReq * 16 + ErrorCodes.OK) :: l)
        = .ok (ErrorCodes.OK, l) := fun l => rfl
  simp only [par_req_send, par_req_recv, hfbc]
  rw [if_neg (by simp)]
  rw [show (6 : Nat) = [s / 256, s % 256, d / 256, d % 256, a * 16 + p, m].length from rfl,
      recvN_all]
  simp only [List.getD_cons_zero, List.getD_cons_succ]
  have hp' : p < 2 := by rcases hp with rfl | rfl <;> omega
  have h1 : s / 256 * 256 + s % 256 = s := by omega
  have h2 : d / 256 * 256 + d % 256 = d := by omega
  have h3 : (a * 16 + p) / 16 = a := by omega
  have h4 : (a * 16 + p) % 16 = p := by omega
  rw [h1, h2, h3, h4, ha]
  simp [hm, hp]

/-- C2 witness: the round-trip at source id 65535, dest id 2, `AES256`
(code 2), padding 1, `CTR` (code 6). -/
theorem par_req_roundtrip_witness :
    par_req_recv blank_session
      (par_req_send { blank_session with
                        source_id := 65535, dest_id := 2,
                        algorithm_code := 2, pkcs5 := 1,
                        algorithm_mode_code := 6 })
      = .ok ({ blank_session with
                 source_id := 65535, dest_id := 2,
                 algorithm := "AES256", algorithm_code := 2, pkcs5 := 1,
                 algorithm_mode := "CTR", algorithm_mode_code := 6 }, []) :=
  par_req_roundtrip blank_session 65535 2 2 1 6 "AES256" "CTR"
    (by decide) (by decide) rfl (Or.inr rfl) rfl

/-- C3 counterexample.  The claim says that on encryption failure the
initiator sends `Conf(Internal)` and terminates without sending any payload
message on the wire.  On the concrete run — valid `ParConf` with a non-ASCII-
zero IV, encryption raising `ErrorCodes(NotSupportedParams)` — the sent trace
contains the frame `[34, 0, 0]`, whose type nibble `34 / 16 = 2` is `Dados`:
a payload message is sent on the wire. -/
theorem encrypt_failure_dados_frame_counterexample :
    (Send_process sample_session (16 :: List.replicate 16 7)
        (.error (.errorCodes 1))).2
      = [par_req_send sample_session, [34, 0, 0], [66]]
    ∧ (34 : Nat) / 16 = Protocol.Dados :=
  ⟨rfl, rfl⟩

/-- C3 amended.  If encryption raises any exception after a successful
parameter negotiation, the initiator first sends a `Dados` frame whose
header code is `Internal` and whose declared payload length is 0 (no
ciphertext bytes), and terminates in `Failed` re-raising the encryption
exception.  When the exception is an `ErrorCodes` instance (e.g. the
wrong-key-size check in `crypto.build_cipher`), `Send.process`'s
`except ErrorCodes` handler additionally sends `Conf(Internal)` before
re-raising; a non-`ErrorCodes` cipher-library exception escapes that
handler, so no `Conf` message is sent at all. -/
theorem encrypt_failure_path (st : Session) (iv : List Nat) (rest : List Nat)
    (hiv : iv.length = 16) (hnz : iv ≠ List.replicate 16 48) :
    (∀ c, Send_process st ((16 :: iv) ++ rest) (.error (.errorCodes c))
      = (.error (.errorCodes c),
         [par_req_send st, [Protocol.Dados * 16 + ErrorCodes.Internal, 0, 0],
          conf_send ErrorCodes.Internal]))
    ∧ (∀ e : PyErr, (∀ c, e ≠ .errorCodes c) →
        Send_process st ((16 :: iv) ++ rest) (.error e)
      = (.error e,
         [par_req_send st,
          [Protocol.Dados * 16 + ErrorCodes.Internal, 0, 0]])) := by
  have hrecv : recvN (iv ++ rest) 16 = .ok (iv, rest) := by
    rw [← hiv]; exact recvN_exact iv rest
  constructor
  · intro c
    simp only [List.cons_append]
    simp only [Send_process, par_conf_OR_lista_recv, recv1]
    simp only [show ErrorCodes_mk (16 % 16) = .ok 0 from rfl,
               if_pos (by decide : (16 : Nat) / 16 = Protocol.ParConf)]
    simp only [par_conf_recv, hrecv,
               if_neg (by decide : ¬((0 : Nat) ≠ ErrorCodes.OK))]
    rw [if_neg hnz]
    simp [dados_send]
  · intro e he
    simp only [List.cons_append]
    simp only [Send_process, par_conf_OR_lista_recv, recv1]
    simp only [show ErrorCodes_mk (16 % 16) = .ok 0 from rfl,
               if_pos (by decide : (16 : Nat) / 16 = Protocol.ParConf)]
    simp only [par_conf_recv, hrecv,
               if_neg (by decide : ¬((0 : Nat) ≠ ErrorCodes.OK))]
    rw [if_neg hnz]
    cases e with
    | errorCodes c => exact absurd rfl (he c)
    | keyError => simp [dados_send]
    | runtimeError => simp [dados_send]
    | connectionBroken => simp [dados_send]
    | cryptoError => simp [dados_send]
    | blocked => simp [dados_send]

/-- C3 amended, witness: the path at the sample session, IV of sixteen `7`
bytes — once with encryption failing with `ErrorCodes(NotSupportedParams)`
(Dados error frame then `Conf(Internal)`), once with a non-`ErrorCodes`
cipher-library exception (Dados error frame, no `Conf`). -/
theorem encrypt_failure_path_witness :
    Send_process sample_session ((16 :: List.replicate 16 7) ++ [])
        (.error (.errorCodes 1))
      = (.error (.errorCodes 1),
         [par_req_send sample_session,
          [Protocol.Dados * 16 + ErrorCodes.Internal, 0, 0],
          conf_send ErrorCodes.Internal])
    ∧ Send_process sample_session ((16 :: List.replicate 16 7) ++ [])
        (.error .cryptoError)
      = (.error .cryptoError,
         [par_req_send sample_session,
          [Protocol.Dados * 16 + ErrorCodes.Internal, 0, 0]]) :=
  ⟨(encrypt_failure_path sample_session (List.replicate 16 7) []
      (by decide) (by decide)).1 1,
   (encrypt_failure_path sample_session (List.replicate 16 7) []
      (by decide) (by decide)).2 .cryptoError (fun c => by simp)⟩

/-- C4 counterexample.  The claim says that after receiving a `Lista` the
initiator terminates without sending any further message.  On the concrete
run — `Lista` header `0x30 = 48` with an empty capability list — the sent
trace contains, after the `ParReq`, the frame `[66]`, whose type nibble
`66 / 16 = 4` is `Conf` (and whose code nibble is `Internal`): a further
message is sent to the peer. -/
theorem lista_reply_counterexample :
    (Send_process sample_session [48, 0] (.ok [])).2
      = [par_req_send sample_session, [66]]
    ∧ (66 : Nat) / 16 = Protocol.Conf :=
  ⟨rfl, rfl⟩

/-- C4 amended.  When the initiator reads a header whose type nibble is
`Lista` (with any code nibble below 7), it decodes the capability list, then
sends `Conf(Internal)` to the peer, and terminates in `Failed` raising the
`ErrorCodes` carried by the `Lista` header. -/
theorem lista_reply_path (st : Session) (cb n : Nat) (payload rest : List Nat)
    (entries : List Opt) (enc : Except PyErr (List Nat))
    (hcb : cb < 7) (hlen : payload.length = n)
    (hent : lista_entries payload = .ok entries) :
    Send_process st (((3 * 16 + cb) :: n :: payload) ++ rest) enc
      = (.error (.errorCodes cb),
         [par_req_send st, conf_send ErrorCodes.Internal]) := by
  simp only [List.cons_append]
  simp only [Send_process, par_conf_OR_lista_recv, recv1]
  simp only [show (3 * 16 + cb) % 16 = cb by omega, ErrorCodes_mk_ok cb hcb]
  rw [if_neg (show ¬((3 * 16 + cb) / 16 = Protocol.ParConf) by
        simp only [Protocol.ParConf]; omega),
      if_pos (show (3 * 16 + cb) / 16 = Protocol.Lista by
        simp only [Protocol.Lista]; omega)]
  have hrecv : recvN (payload ++ rest) n = .ok (payload, rest) := by
    rw [← hlen]; exact recvN_exact payload rest
  simp only [lista_recv, recv1, hrecv, hent]
  simp

/-- C4 amended, witness: a `Lista(OK)` carrying the single entry
`(AES128, no padding, mode byte 3)`. -/
theorem lista_reply_path_witness :
    Send_process sample_session (((3 * 16 + 0) :: 2 :: [0, 3]) ++ []) (.ok [])
      = (.error (.errorCodes 0),
         [par_req_send sample_session, conf_send ErrorCodes.Internal]) :=
  lista_reply_path sample_session 0 2 [0, 3] [] [⟨"AES128", false, "DES"⟩]
    (.ok []) (by decide) rfl rfl

/-- C5.  A `ParReq` whose algorithm nibble is not a `code_to_alg` key, or
whose padding nibble is neither 0 nor 1, or whose mode byte is not a
`code_to_mode` key, makes the responder send exactly one frame — a `Conf`
carrying `Internal` — and terminate in `Failed` raising
`ErrorCodes(NotSupportedParams)`; in particular no `ParConf` is ever sent. -/
theorem bad_par_req_conf_internal
    (s1 s2 d1 d2 b4 b5 : Nat) (rest iv : List Nat)
    (dec : Except PyErr (List Nat))
    (h : Protocol.code_to_alg (b4 / 16) = none
       ∨ (b4 % 16 ≠ 0 ∧ b4 % 16 ≠ 1)
       ∨ Protocol.code_to_mode b5 = none) :
    Receive_process ([0, s1, s2, d1, d2, b4, b5] ++ rest) iv dec
      = (.error (.errorCodes ErrorCodes.NotSupportedParams),
         [conf_send ErrorCodes.Internal]) := by
  simp only [Receive_process,
             par_req_recv_bad blank_session s1 s2 d1 d2 b4 b5 rest h]

/-- C5 witness: a `ParReq` for ids 1 → 2 requesting algorithm 0 with the
reserved mode code 2. -/
theorem bad_par_req_conf_internal_witness :
    Receive_process ([0, 0, 1, 0, 2, 0, 2] ++ []) [] (.ok [])
      = (.error (.errorCodes ErrorCodes.NotSupportedParams),
         [conf_send ErrorCodes.Internal]) :=
  bad_par_req_conf_internal 0 1 0 2 0 2 [] [] (.ok []) (Or.inr (Or.inr rfl))

/-- C6.  For every plaintext longer than 1440 bytes (and otherwise valid
constructor arguments: the algorithm string splits into a registered
algorithm and mode), constructing the initiator session fails with
`ErrorCodes(Internal)` and the sent-frame trace is empty: no network I/O
happens. -/
theorem oversize_local (source_id dest_id : Nat) (algorithm : String)
    (pkcs5 : Bool) (msg input : List Nat) (enc : Except PyErr (List Nat))
    (alg mode : String) (ac mc : Nat)
    (hsplit : split_on_comma algorithm = [alg, mode])
    (ha : Protocol.alg_to_code alg = some ac)
    (hm : Protocol.mode_to_code mode = some mc)
    (hlen : 1440 < msg.length) :
    Client_send source_id dest_id algorithm pkcs5 msg input enc
      = (.error (.errorCodes ErrorCodes.Internal), []) := by
  simp only [Client_send, Send_init, hsplit, ha, hm, if_pos hlen]

/-- C6 witness: a 1441-byte message with `AES128,ECB`. -/
theorem oversize_local_witness :
    Client_send 1 2 ("AES128,ECB") false (List.replicate 1441 0) [] (.ok [])
      = (.error (.errorCodes ErrorCodes.Internal), []) :=
  oversize_local 1 2 ("AES128,ECB") false (List.replicate 1441 0) [] (.ok [])
    "AES128" "ECB" 0 0 (by decide) rfl rfl
    (by rw [List.length_replicate]; omega)

/-- C7.  The algorithm and mode registries are mutually inverse on their
registered sets — `alg_to_code` inverts `code_to_alg` and vice versa, and
likewise for modes — the registered algorithm codes are exactly 0–5, the
registered mode codes exactly {0, 1, 3, 6}, and the registered names and
codes are exactly `AES128..3DES-EDE3` ↦ 0–5 and `ECB, CBC, CFB8, CTR` ↦
0, 1, 3, 6. -/
theorem registry_bijection :
    (∀ c n, Protocol.code_to_alg c = some n → Protocol.alg_to_code n = some c)
    ∧ (∀ n c, Protocol.alg_to_code n = some c → Protocol.code_to_alg c = some n)
    ∧ (∀ c n, Protocol.code_to_mode c = some n → Protocol.mode_to_code n = some c)
    ∧ (∀ n c, Protocol.mode_to_code n = some c → Protocol.code_to_mode c = some n)
    ∧ (∀ c, (∃ n, Protocol.code_to_alg c = some n) ↔ c < 6)
    ∧ (∀ c, (∃ n, Protocol.code_to_mode c = some n)
          ↔ (c = 0 ∨ c = 1 ∨ c = 3 ∨ c = 6))
    ∧ Protocol.code_to_alg 0 = some ("AES128")
    ∧ Protocol.code_to_alg 1 = some ("AES192")
    ∧ Protocol.code_to_alg 2 = some ("AES256")
    ∧ Protocol.code_to_alg 3 = some ("DES")
    ∧ Protocol.code_to_alg 4 = some ("3DES-EDE2")
    ∧ Protocol.code_to_alg 5 = some ("3DES-EDE3")
    ∧ Protocol.code_to_mode 0 = some ("ECB")
    ∧ Protocol.code_to_mode 1 = some ("CBC")
    ∧ Protocol.code_to_mode 3 = some ("CFB8")
    ∧ Protocol.code_to_mode 6 = some ("CTR") := by
  refine ⟨?_, ?_, ?_, ?_, ?_, ?_,
          rfl, rfl, rfl, rfl, rfl, rfl, rfl, rfl, rfl, rfl⟩
  · intro c n h
    have hc := alg_codes_lt c n h
    interval_cases c <;>
      simp only [Protocol.code_to_alg, Option.some.injEq] at h <;>
      subst h <;> rfl
  · intro n c h
    unfold Protocol.alg_to_code at h
    split at h <;> first
      | (injection h with h; subst h; rfl)
      | exact Option.noConfusion h
  · intro c n h
    rcases mode_codes_mem c n h with rfl | rfl | rfl | rfl <;>
      simp only [Protocol.code_to_mode, Option.some.injEq] at h <;>
      subst h <;> rfl
  · intro n c h
    unfold Protocol.mode_to_code at h
    split at h <;> first
      | (injection h with h; subst h; rfl)
      | exact Option.noConfusion h
  · intro c
    constructor
    · rintro ⟨n, h⟩; exact alg_codes_lt c n h
    · intro h; interval_cases c <;> exact ⟨_, rfl⟩
  · intro c
    constructor
    · rintro ⟨n, h⟩; exact mode_codes_mem c n h
    · rintro (rfl | rfl | rfl | rfl) <;> exact ⟨_, rfl⟩

/-- C7 witness: the inverse property applied at algorithm code 0 and mode
code 6. -/
theorem registry_bijection_witness :
    Protocol.alg_to_code "AES128" = some 0
    ∧ Protocol.mode_to_code "CTR" = some 6 :=
  ⟨registry_bijection.1 0 "AES128" rfl,
   registry_bijection.2.2.1 6 "CTR" rfl⟩

/-- C8.  The claim says `lista_recv` maps each entry's second (mode code)
byte through the mode registry.  The code looks it up in `code_to_alg`
instead: on the failing input — a 2-byte `Lista` payload whose entry is
algorithm 0 with mode byte 6 (`CTR`, a registered mode) — decoding raises
`KeyError`; with mode byte 3 (`CFB8`) it instead stores the algorithm name
`DES` as the entry's mode. -/
theorem lista_mode_alg_table_bug :
    lista_recv 0 [2, 0, 6] = .error .keyError
    ∧ lista_recv 0 [2, 0, 3] = .ok ((0, [⟨"AES128", false, "DES"⟩]), [])
    ∧ Protocol.code_to_mode 6 = some ("CTR")
    ∧ Protocol.code_to_mode 3 = some ("CFB8") :=
  ⟨rfl, rfl, rfl, rfl⟩

/-- C9.  The chunk-level transport receive: (1) whenever it returns
successfully it returns exactly the requested number of bytes; (2) if the
stream yields an empty read while fewer than the requested bytes have
accumulated, it fails with the connection-broken error (the error carries no
partial data); (3) it accumulates distinct partial reads into one result. -/
theorem connection_receive_spec :
    (∀ chunks n m, Networking.receive chunks n = .ok m → m.length = n)
    ∧ (∀ pre rest n, (∀ c ∈ pre, c ≠ ([] : List Nat)) →
        Networking.accLen pre 0 n < n →
        Networking.receive (pre ++ [] :: rest) n = .error .connectionBroken)
    ∧ (∀ a b n, a ≠ [] → b ≠ [] → n ≤ 2048 → a.length < n →
        a.length + b.length = n → Networking.receive [a, b] n = .ok (a ++ b)) := by
  refine ⟨?_, ?_, receive_two_chunks⟩
  · intro chunks n m h
    simp only [Networking.receive] at h
    exact receiveAux_ok_length chunks [] n m (by simp) h
  · intro pre rest n hne hacc
    simp only [Networking.receive]
    exact receiveAux_break pre rest [] n hne hacc

/-- C9 witness: an empty read after one byte of a 3-byte request breaks the
connection; two 1-byte chunks accumulate into a 2-byte read. -/
theorem connection_receive_spec_witness :
    Networking.receive [[5], [], [6]] 3 = .error .connectionBroken
    ∧ Networking.receive [[5], [6]] 2 = .ok ([5] ++ [6]) :=
  ⟨connection_receive_spec.2.1 [[5]] [[6]] 3 (by decide) (by decide),
   connection_receive_spec.2.2 [5] [6] 2 (by decide) (by decide) (by decide)
     (by decide) (by decide)⟩

/-- C10.  When the received byte's type nibble matches the expected type but
its code nibble is 7–15, `first_byte_check` raises `KeyError` from the
`ErrorCodes` constructor instead of producing an error-taxonomy member:
`error_types` is defined exactly on 0–6 and undefined on every larger
code. -/
theorem code_nibble_not_total :
    (∀ t b rest, b / 16 = t → 7 ≤ b % 16 →
      first_byte_check t (b :: rest) = .error .keyError)
    ∧ (∀ c, c ≤ 6 → ∃ s, error_types c = some s)
    ∧ (∀ c, 7 ≤ c → error_types c = none) := by
  refine ⟨?_, ?_, ?_⟩
  · intro t b rest ht h7
    subst ht
    simp only [first_byte_check, recv1, ErrorCodes_mk, error_types_ge7 _ h7]
    simp
  · intro c hc
    interval_cases c <;> exact ⟨_, rfl⟩
  · exact error_types_ge7

/-- C10 witness: the byte `0x4F = 79` (type nibble `Conf`, code nibble 15)
raises `KeyError`; code 7 is outside `error_types`. -/
theorem code_nibble_not_total_witness :
    first_byte_check 4 [79] = .error .keyError ∧ error_types 7 = none :=
  ⟨code_nibble_not_total.1 4 79 [] (by decide) (by decide),
   code_nibble_not_total.2.2 7 (by decide)⟩

end SSMS
